import Mathlib

/-!
Verification of the federated-learning client coordination core
(`plato/clients/base.py`): the payload codec (chunked send/receive), the
client constructor with its cross-silo edge mapping, the heartbeat
interval selection, and the round loop of `Client.start_client`.

Python values exchanged over the wire (pickled dicts, lists, ints, floats,
booleans, strings) are embedded as `PyVal`; floats occur only as inert
report data and are embedded as rationals.  `pickle.dumps` / `pickle.loads`
are embedded as a wrapper satisfying the round-trip law the code relies
on.  `sys.getsizeof` is an opaque parameter `sz`.
-/

namespace Plato

/-- Values that the client pickles onto or unpickles from the wire. -/
inductive PyVal where
  | none
  | int (n : Int)
  | float (q : ℚ)
  | bool (b : Bool)
  | str (s : String)
  | list (xs : List PyVal)
  | dict (entries : List (String × PyVal))

/-- Tests whether a value is a Python list (`isinstance(payload, list)`). -/
def PyVal.isList : PyVal → Bool
  | .list _ => true
  | _ => false

/-- Result of `pickle.dumps`: an opaque binary frame carrying one value. -/
structure Pickled where
  val : PyVal

/-- Embedding of `pickle.dumps`. -/
def pickle_dumps (v : PyVal) : Pickled := ⟨v⟩

/-- Embedding of `pickle.loads`; inverse of `pickle_dumps`. -/
def pickle_loads (f : Pickled) : PyVal := f.val

/-- Client report dataclass (`Report` in `base.py`): sample count and
accuracy.  The float accuracy is inert data and embedded as a rational. -/
structure Report where
  num_samples : Int
  accuracy : ℚ
deriving DecidableEq

/-- Wire form of a pickled `Report` object: its two fields. -/
def Report.toPyVal (r : Report) : PyVal :=
  .dict [("num_samples", .int r.num_samples), ("accuracy", .float r.accuracy)]

/-- Round Selection Message sent coordinator to client: the fields of the
unpickled dict `data` that `start_client` and `recv` inspect.  `payload`
and `payload_length` are `Option` because the code tests key membership
(`'payload' in data`, `'payload_length' in data`). -/
structure SelectionData where
  id : Int
  payload : Option PyVal
  payload_length : Option Int

/-- Loop body of `Client.recv` for the chunked case: perform `n` ordered
blocking receives from the frame stream, unpickling each and accumulating
`sys.getsizeof` byte counts.  `none` models the receive blocking on an
exhausted stream.  Returns the collected payload list, the byte count and
the unconsumed remainder of the stream. -/
def recvChunks (sz : Pickled → Nat) : Nat → List Pickled →
    Option (List PyVal × Nat × List Pickled)
  | 0, stream => some ([], 0, stream)
  | _ + 1, [] => Option.none
  | n + 1, f :: rest =>
      (recvChunks sz n rest).map
        (fun r => (pickle_loads f :: r.1, sz f + r.2.1, r.2.2))

namespace Client

/-- Embedding of `Client.recv`: if the selection message declared
`payload_length`, receive exactly that many ordered chunks into a list
(`range(0, n)` iterates `max(0, n)` times, hence `toNat`); otherwise
perform one blocking receive and unpickle the single value.  Returns the
payload, the accounted byte volume and the unconsumed stream. -/
def recv (sz : Pickled → Nat) (data : SelectionData) (stream : List Pickled) :
    Option (PyVal × Nat × List Pickled) :=
  match data.payload_length with
  | some n =>
      (recvChunks sz n.toNat stream).map
        (fun r => (PyVal.list r.1, r.2.1, r.2.2))
  | Option.none =>
      match stream with
      | [] => Option.none
      | f :: rest => some (pickle_loads f, sz f, rest)

/-- Embedding of `Client.send`: a list payload is pickled and sent one
frame per element in sequence order; any other payload is pickled and
sent as a single frame.  Returns the ordered frames and the accounted
byte volume. -/
def send (sz : Pickled → Nat) (payload : PyVal) : List Pickled × Nat :=
  match payload with
  | .list xs =>
      (xs.map pickle_dumps, (xs.map (fun d => sz (pickle_dumps d))).sum)
  | v => ([pickle_dumps v], sz (pickle_dumps v))

end Client

/-- Configuration fields of `Config()` read by the client.  `Option`
fields model attributes whose presence the code tests with `hasattr`. -/
structure Config where
  args_id : Int
  server_address : String
  server_port : Int
  server_heartbeat_max_interval : Option Nat
  clients_total_clients : Int
  clients_heartbeat_max_interval : Option Nat
  algorithm_cross_silo : Bool
  algorithm_total_silos : Option Int
  is_edge_server : Bool
deriving DecidableEq

/-- State established by `Client.__init__` and mutated by the round loop. -/
structure ClientState where
  client_id : Int
  data_loaded : Bool
  edge_server_id : Option Int
  server_port : Int
deriving DecidableEq

namespace Client

/-- Embedding of `Client.__init__`: reads the client id, marks data
unloaded, and when cross-silo topology is configured on a non-edge
client derives the edge server id
`total_clients + (client_id - 1) % total_silos + 1` and offsets the
server port by it.  `none` models the `AttributeError` raised when
`total_silos` is absent (both the `int()` access and the `assert` need
it). -/
def init (cfg : Config) : Option ClientState :=
  if cfg.algorithm_cross_silo && !cfg.is_edge_server then
    match cfg.algorithm_total_silos with
    | Option.none => Option.none
    | some silos =>
        let eid := cfg.clients_total_clients + (cfg.args_id - 1) % silos + 1
        some { client_id := cfg.args_id, data_loaded := false,
               edge_server_id := some eid,
               server_port := cfg.server_port + eid }
  else
    some { client_id := cfg.args_id, data_loaded := false,
           edge_server_id := Option.none,
           server_port := cfg.server_port }

end Client

/-- Interval bound picked by each iteration of `Client.heartbeat`:
`Config().clients.heartbeat_max_interval if hasattr(Config().server,
'heartbeat_max_interval') else 60`.  Note the code tests the attribute on
the `server` section yet reads it from the `clients` section; `none`
models the `AttributeError` raised when the `server` section has the
attribute but the `clients` section does not. -/
def heartbeatMaxInterval (cfg : Config) : Option Nat :=
  if cfg.server_heartbeat_max_interval.isSome then
    cfg.clients_heartbeat_max_interval
  else
    some 60

/-- Sleep performed after each heartbeat:
`heartbeat_max_interval * random.random()`, with the random draw
`r` in `[0, 1)` passed explicitly. -/
def heartbeatSleep (cfg : Config) (r : ℚ) : Option ℚ :=
  (heartbeatMaxInterval cfg).map (fun m => (m : ℚ) * r)

/-- Python exception raised by a collaborator call: `os` covers the
`OSError` hierarchy, which the `except OSError` handler in
`start_client` catches; `other` covers every other exception, which
propagates out of `start_client`. -/
inductive PyErr where
  | os (msg : String)
  | other (msg : String)
deriving DecidableEq

/-- Observable actions performed by one run of the coordination loop, in
order: invocations of the external collaborators, the heartbeat process
lifecycle, frames sent on the main session, and the failure log of the
`except OSError` handler.  Pure progress logging is not modelled. -/
inductive Event where
  | loadData
  | loadPayload (p : PyVal)
  | hbStart
  | trainInvoke
  | hbTerminate
  | wsSend (f : Pickled)
  | logConnFailed (client_id : Int) (msg : String)

/-- Outcome of one iteration of the `while True` body in `start_client`. -/
inductive StepOut where
  | ok (st : ClientState)
  | raised (e : PyErr)
  | blocked

/-- Modelled from the spec: the external data-loading collaborator
`load_data` (an abstract method of `Client`, with no implementation under
the sources); per the spec it loads the training data once per process,
so its modelled effect is to mark the data handle cached. -/
def loadDataEffect (st : ClientState) : ClientState :=
  { st with data_loaded := true }

/-- Report metadata dict built at the end of a round:
`{'id': client_id, 'report': report, 'payload': True}`. -/
def clientReportVal (client_id : Int) (r : Report) : PyVal :=
  .dict [("id", .int client_id), ("report", r.toPyVal), ("payload", .bool true)]

/-- Training phase of one round (`base.py` lines 119 to 143): start the
heartbeat process, invoke `train`, and on success terminate the
heartbeat, send the pickled report metadata frame and then the payload
frames.  When `train` raises there is no enclosing `try`, so the
heartbeat process is not terminated and the exception propagates. -/
def trainAndReport (sz : Pickled → Nat) (st : ClientState)
    (train : Except PyErr (Report × PyVal)) : List Event × StepOut :=
  match train with
  | .error e => ([Event.hbStart, Event.trainInvoke], .raised e)
  | .ok (report, payload) =>
      ([Event.hbStart, Event.trainInvoke, Event.hbTerminate,
        Event.wsSend (pickle_dumps (clientReportVal st.client_id report))] ++
        (Client.send sz payload).1.map Event.wsSend,
       .ok st)

/-- One iteration of the `while True` body of `start_client`, applied to
one received and unpickled selection message `data`, with the frames
available for subsequent receives and the outcome of this round's
`train` call.  A message whose `id` differs from the client identity
falls through the `if` with no effect and the loop waits again.  On a
match: `load_data` on the first round only, then the optional payload
receive handed to `load_payload`, then the training phase. -/
def handleSelection (sz : Pickled → Nat) (st : ClientState)
    (data : SelectionData) (frames : List Pickled)
    (train : Except PyErr (Report × PyVal)) : List Event × StepOut :=
  if data.id = st.client_id then
    let (ev1, st1) :=
      if st.data_loaded then ([], st) else ([Event.loadData], loadDataEffect st)
    if data.payload.isSome then
      match Client.recv sz data frames with
      | Option.none => (ev1, .blocked)
      | some (server_payload, _size, _rest) =>
          let r := trainAndReport sz st1 train
          (ev1 ++ [Event.loadPayload server_payload] ++ r.1, r.2)
    else
      let r := trainAndReport sz st1 train
      (ev1 ++ r.1, r.2)
  else
    ([], .ok st)

/-- Network-facing events scripted against one run of the loop: either a
selection message arrives (with the payload frames behind it and the
outcome of the training call it triggers), or the blocking receive
raises an `OSError`-class transport error. -/
inductive NetEvent where
  | msg (data : SelectionData) (frames : List Pickled)
        (train : Except PyErr (Report × PyVal))
  | oserror (msg : String)

/-- Terminal status of a run of the loop of `start_client`. -/
inductive LoopResult where
  | awaiting (st : ClientState)
  | failed
  | raised (e : PyErr)
  | blocked

/-- Embedding of the `while True` loop of `start_client` over a finite
script of network events.  A transport `OSError` (from the receive, or
an `OSError` escaping the round body) is caught by the `except OSError`
handler, which logs the failure with the client identity and falls off
the coroutine: no retry, no further events.  Any other exception
propagates.  An exhausted script leaves the client suspended awaiting
selection. -/
def runLoop (sz : Pickled → Nat) (st : ClientState) :
    List NetEvent → List Event × LoopResult
  | [] => ([], .awaiting st)
  | .oserror m :: _rest =>
      ([Event.logConnFailed st.client_id m], .failed)
  | .msg data frames train :: rest =>
      match handleSelection sz st data frames train with
      | (evs, .ok st1) =>
          let r := runLoop sz st1 rest
          (evs ++ r.1, r.2)
      | (evs, .raised (.os m)) =>
          (evs ++ [Event.logConnFailed st.client_id m], .failed)
      | (evs, .raised (.other m)) => (evs, .raised (.other m))
      | (evs, .blocked) => (evs, .blocked)

/-- Embedding of `start_client`: construct the client, send the
registration frame `{'id': client_id}`, then run the selection loop. -/
def start_client (sz : Pickled → Nat) (cfg : Config)
    (script : List NetEvent) : Option (List Event × LoopResult) :=
  (Client.init cfg).map (fun st =>
    let r := runLoop sz st script
    (Event.wsSend (pickle_dumps (.dict [("id", .int st.client_id)])) :: r.1,
     r.2))

/-- Frames sent on the main session, extracted from an event trace. -/
def sentFrames (evs : List Event) : List Pickled :=
  evs.filterMap (fun e => match e with | .wsSend f => some f | _ => Option.none)

/-- Counts `load_data` invocations in an event trace. -/
def countLD (evs : List Event) : Nat :=
  evs.countP (fun e => match e with | .loadData => true | _ => false)

/-- Byte-size function used in concrete examples: every frame one byte. -/
def sz1 : Pickled → Nat := fun _ => 1

/-- Configuration of the cross-silo scenario of the spec: client id 3,
10 clients, 2 silos, a non-edge client, parameterised by the base port. -/
def crossSiloCfg (basePort : Int) : Config :=
  { args_id := 3, server_address := "127.0.0.1", server_port := basePort,
    server_heartbeat_max_interval := Option.none,
    clients_total_clients := 10,
    clients_heartbeat_max_interval := Option.none,
    algorithm_cross_silo := true,
    algorithm_total_silos := some 2,
    is_edge_server := false }

/-- Configuration where the clients section configures a heartbeat
interval of 30 but the server section has no such attribute. -/
def hbMisconfig : Config :=
  { args_id := 3, server_address := "127.0.0.1", server_port := 8000,
    server_heartbeat_max_interval := Option.none,
    clients_total_clients := 10,
    clients_heartbeat_max_interval := some 30,
    algorithm_cross_silo := false,
    algorithm_total_silos := Option.none,
    is_edge_server := false }

/-- Client state used in concrete examples: identity 3, data not yet
loaded, central-server topology, port 8000. -/
def demoState : ClientState :=
  { client_id := 3, data_loaded := false,
    edge_server_id := Option.none, server_port := 8000 }

/-- Report used in concrete examples: 50 samples, accuracy 0.91. -/
def demoReport : Report := { num_samples := 50, accuracy := 91 / 100 }

/-! Helper lemmas about the codec and the selection step. -/

theorem recvChunks_dumps (sz : Pickled → Nat) (xs : List PyVal)
    (rest : List Pickled) :
    recvChunks sz xs.length (xs.map pickle_dumps ++ rest) =
      some (xs, (xs.map (fun d => sz (pickle_dumps d))).sum, rest) := by
  induction xs with
  | nil => rfl
  | cons d ds ih =>
      simp only [List.map_cons, List.length_cons, List.cons_append,
        recvChunks]
      rw [List.append_eq, ih]
      rfl

theorem send_not_list (sz : Pickled → Nat) (v : PyVal)
    (hv : v.isList = false) :
    Client.send sz v = ([pickle_dumps v], sz (pickle_dumps v)) := by
  cases v <;> simp_all [Client.send, PyVal.isList]

theorem sentFrames_append (a b : List Event) :
    sentFrames (a ++ b) = sentFrames a ++ sentFrames b := by
  simp [sentFrames]

theorem sentFrames_map_wsSend (l : List Pickled) :
    sentFrames (l.map Event.wsSend) = l := by
  induction l with
  | nil => rfl
  | cons f t ih => simp [sentFrames] at ih ⊢; exact ih

theorem handleSelection_unmatched (sz : Pickled → Nat) (st : ClientState)
    (data : SelectionData) (frames : List Pickled)
    (train : Except PyErr (Report × PyVal))
    (h : data.id ≠ st.client_id) :
    handleSelection sz st data frames train = ([], .ok st) := by
  simp [handleSelection, h]

/-- C10: when the selection message declares `payload_length = 0`, `recv`
performs zero blocking receives (the stream is returned untouched) and
returns the empty sequence with 0 accounted bytes. -/
theorem recv_zero_chunks (sz : Pickled → Nat) (data : SelectionData)
    (stream : List Pickled) (h : data.payload_length = some 0) :
    Client.recv sz data stream = some (PyVal.list [], 0, stream) := by
  simp [Client.recv, h, recvChunks]

/-- Witness for C10 at a concrete selection message and stream. -/
theorem recv_zero_chunks_witness :
    Client.recv sz1 ⟨3, some (.bool true), some 0⟩ [pickle_dumps (.int 7)] =
      some (PyVal.list [], 0, [pickle_dumps (.int 7)]) :=
  recv_zero_chunks sz1 ⟨3, some (.bool true), some 0⟩ [pickle_dumps (.int 7)] rfl

/-- C6: the payload codec round-trips.  Sending an ordered sequence of
N elements (N at least 1) and receiving with expected chunk count N over
an in-order lossless channel returns the same sequence element-wise in
order, consuming the stream exactly; sending a non-sequence payload and
receiving with no expected count returns the same value. -/
theorem payload_codec_roundtrip (sz : Pickled → Nat) (i : Int)
    (xs : List PyVal) (hN : 1 ≤ xs.length) (v : PyVal)
    (hv : v.isList = false) :
    Client.recv sz ⟨i, some (.bool true), some (xs.length : Int)⟩
        (Client.send sz (.list xs)).1 =
      some (PyVal.list xs, (Client.send sz (.list xs)).2, []) ∧
    Client.recv sz ⟨i, Option.none, Option.none⟩ (Client.send sz v).1 =
      some (v, (Client.send sz v).2, []) := by
  constructor
  · have h := recvChunks_dumps sz xs []
    simp only [List.append_nil] at h
    simp [Client.recv, Client.send, h]
  · rw [send_not_list sz v hv]
    simp [Client.recv, pickle_loads, pickle_dumps]

/-- Witness for C6 with a two-element sequence and an integer payload. -/
theorem payload_codec_roundtrip_witness :
    Client.recv sz1 ⟨3, some (.bool true), some (([PyVal.int 1, PyVal.int 2].length : Nat) : Int)⟩
        (Client.send sz1 (.list [PyVal.int 1, PyVal.int 2])).1 =
      some (PyVal.list [PyVal.int 1, PyVal.int 2],
        (Client.send sz1 (.list [PyVal.int 1, PyVal.int 2])).2, []) ∧
    Client.recv sz1 ⟨3, Option.none, Option.none⟩
        (Client.send sz1 (.int 5)).1 =
      some (PyVal.int 5, (Client.send sz1 (.int 5)).2, []) :=
  payload_codec_roundtrip sz1 3 [PyVal.int 1, PyVal.int 2] (by decide)
    (.int 5) rfl

/-- C7: the heartbeat interval selection reads the configured value from
the clients section only when the server section happens to carry an
attribute of that name; with `clients.heartbeat_max_interval = 30`
configured and no such attribute on the server section, the code uses
the default 60 rather than the configured 30, so every heartbeat sleep
is drawn from `[0, 60)` instead of `[0, 30)`. -/
theorem heartbeat_interval_wrong_section :
    hbMisconfig.clients_heartbeat_max_interval = some 30 ∧
    heartbeatMaxInterval hbMisconfig = some 60 ∧
    (∀ r : ℚ, heartbeatSleep hbMisconfig r = some (60 * r)) := by
  refine ⟨rfl, rfl, fun r => ?_⟩
  simp [heartbeatSleep, heartbeatMaxInterval, hbMisconfig]

/-- C5 counterexample: with client id 3, 10 total clients, 2 silos and
base port 1000, the constructor computes `edge_server_id = 11` and
`server_port = 1011`, refuting the claimed values 12 and 1012. -/
theorem edge_scenario_cex :
    (Client.init (crossSiloCfg 1000)).map ClientState.edge_server_id =
        some (some 11) ∧
    (Client.init (crossSiloCfg 1000)).map ClientState.server_port =
        some 1011 ∧
    ¬ ((Client.init (crossSiloCfg 1000)).map ClientState.edge_server_id =
        some (some 12)) ∧
    ¬ ((Client.init (crossSiloCfg 1000)).map ClientState.server_port =
        some (1000 + 12)) := by
  refine ⟨rfl, rfl, ?_, ?_⟩ <;> decide

/-- C5 amended: for client id 3, 10 total clients and 2 silos on a
non-edge client, the constructor computes
`edge_server_id = 10 + (3 - 1) % 2 + 1 = 11` and
`server_port = base_port + 11`, for every base port. -/
theorem edge_scenario_amended (basePort : Int) :
    Client.init (crossSiloCfg basePort) =
      some { client_id := 3, data_loaded := false,
             edge_server_id := some 11, server_port := basePort + 11 } := by
  simp [Client.init, crossSiloCfg]

/-- C4 counterexample: with 10 total clients and 2 edges (silos), client
id 3 is mapped to edge identity 11, which does not lie in `[1, 2]` as
the claim states. -/
theorem edge_id_range_cex :
    (Client.init (crossSiloCfg 1000)).map ClientState.edge_server_id =
        some (some 11) ∧
    ¬ ((1 : Int) ≤ 11 ∧ (11 : Int) ≤ 2) := by
  exact ⟨rfl, by decide⟩

/-- C4 amended: for every configuration with cross-silo topology on a
non-edge client, `total_silos > 0` and `client_id` in
`[1, total_clients]`, the constructor deterministically maps the client
id to the single edge identity
`total_clients + (client_id - 1) % total_silos + 1`, which lies in
`[total_clients + 1, total_clients + total_silos]`. -/
theorem edge_mapping_range (cfg : Config) (silos : Int)
    (hcs : cfg.algorithm_cross_silo = true)
    (hes : cfg.is_edge_server = false)
    (hts : cfg.algorithm_total_silos = some silos) (hpos : 0 < silos)
    (hlo : 1 ≤ cfg.args_id)
    (hhi : cfg.args_id ≤ cfg.clients_total_clients) :
    ∃ st, Client.init cfg = some st ∧
      st.edge_server_id =
        some (cfg.clients_total_clients + (cfg.args_id - 1) % silos + 1) ∧
      ∀ e, st.edge_server_id = some e →
        cfg.clients_total_clients + 1 ≤ e ∧
        e ≤ cfg.clients_total_clients + silos := by
  have hinit : Client.init cfg =
      some { client_id := cfg.args_id, data_loaded := false,
             edge_server_id :=
               some (cfg.clients_total_clients + (cfg.args_id - 1) % silos + 1),
             server_port := cfg.server_port +
               (cfg.clients_total_clients + (cfg.args_id - 1) % silos + 1) } := by
    simp [Client.init, hcs, hes, hts]
  refine ⟨_, hinit, rfl, ?_⟩
  intro e he
  have h1 : 0 ≤ (cfg.args_id - 1) % silos :=
    Int.emod_nonneg _ (ne_of_gt hpos)
  have h2 : (cfg.args_id - 1) % silos < silos :=
    Int.emod_lt_of_pos _ hpos
  simp only [Option.some.injEq] at he
  omega

/-- Witness for C4 at the concrete cross-silo configuration. -/
theorem edge_mapping_range_witness :
    ∃ st, Client.init (crossSiloCfg 1000) = some st ∧
      st.edge_server_id =
        some ((crossSiloCfg 1000).clients_total_clients +
          ((crossSiloCfg 1000).args_id - 1) % 2 + 1) ∧
      ∀ e, st.edge_server_id = some e →
        (crossSiloCfg 1000).clients_total_clients + 1 ≤ e ∧
        e ≤ (crossSiloCfg 1000).clients_total_clients + 2 :=
  edge_mapping_range (crossSiloCfg 1000) 2 rfl rfl rfl (by decide)
    (by decide) (by decide)

/-- C2 counterexample: a selection message with id 7 arriving at the
client with identity 3 produces no events, raises nothing, and leaves
the state untouched — the loop silently keeps waiting instead of
raising a protocol-violation error. -/
theorem foreign_id_silently_skipped_cex :
    handleSelection sz1 demoState ⟨7, Option.none, Option.none⟩ []
        (.ok (demoReport, .int 0)) = ([], .ok demoState) :=
  rfl

/-- C2 amended: a Round Selection Message whose id differs from the
client identity is not applied and has no observable effect: no error is
raised, no collaborator is invoked, and the loop continues waiting. -/
theorem foreign_id_not_applied (sz : Pickled → Nat) (st : ClientState)
    (data : SelectionData) (frames : List Pickled)
    (train : Except PyErr (Report × PyVal))
    (h : data.id ≠ st.client_id) :
    handleSelection sz st data frames train = ([], .ok st) :=
  handleSelection_unmatched sz st data frames train h

/-- Witness for C2 at a concrete mismatched message. -/
theorem foreign_id_not_applied_witness :
    handleSelection sz1 demoState ⟨9, some (.bool true), some 1⟩
        [pickle_dumps (.int 0)] (.error (.other "boom")) =
      ([], .ok demoState) :=
  foreign_id_not_applied sz1 demoState ⟨9, some (.bool true), some 1⟩
    [pickle_dumps (.int 0)] (.error (.other "boom")) (by decide)

theorem client_id_if_loaded (st : ClientState) :
    (if st.data_loaded then st else loadDataEffect st).client_id =
      st.client_id := by
  cases h : st.data_loaded <;> simp [loadDataEffect, h]

theorem sentFrames_trainAndReport_ok (sz : Pickled → Nat) (st : ClientState)
    (r : Report) (p : PyVal) :
    sentFrames (trainAndReport sz st (.ok (r, p))).1 =
      pickle_dumps (clientReportVal st.client_id r) ::
        (Client.send sz p).1 := by
  show sentFrames (_ ++ _) = _
  rw [sentFrames_append, sentFrames_map_wsSend]
  rfl

theorem sentFrames_nil_of_no_send (l : List Event)
    (h : ∀ e ∈ l, e = Event.loadData ∨ ∃ q, e = Event.loadPayload q) :
    sentFrames l = [] := by
  induction l with
  | nil => rfl
  | cons e t ih =>
      have ht := ih (fun x hx => h x (List.mem_cons_of_mem _ hx))
      rcases h e (List.mem_cons_self e t) with he | ⟨q, he⟩ <;> subst he <;>
        simpa [sentFrames, List.filterMap_cons] using ht

/-- Structure of a matched, non-blocking selection step: the events are
the data-loading and payload-loading collaborator calls followed by the
training phase, and the outcome is the training phase outcome (with the
data handle marked loaded when this was the first round). -/
theorem handleSelection_matched_shape (sz : Pickled → Nat)
    (st : ClientState) (data : SelectionData) (frames : List Pickled)
    (train : Except PyErr (Report × PyVal))
    (hid : data.id = st.client_id)
    (hp : data.payload.isSome = true →
      (Client.recv sz data frames).isSome = true) :
    ∃ pre,
      (handleSelection sz st data frames train).1 =
        pre ++ (trainAndReport sz
          (if st.data_loaded then st else loadDataEffect st) train).1 ∧
      (∀ e ∈ pre, e = Event.loadData ∨ ∃ q, e = Event.loadPayload q) ∧
      (handleSelection sz st data frames train).2 =
        (trainAndReport sz
          (if st.data_loaded then st else loadDataEffect st) train).2 := by
  by_cases hpay : data.payload.isSome
  · obtain ⟨⟨sp, nb, rest⟩, hval⟩ := Option.isSome_iff_exists.mp (hp hpay)
    cases hdl : st.data_loaded
    · refine ⟨[Event.loadData, Event.loadPayload sp], ?_, ?_, ?_⟩
      · simp [handleSelection, hid, hdl, hpay, hval]
      · intro e he
        simp only [List.mem_cons, List.not_mem_nil, or_false] at he
        rcases he with rfl | rfl
        · exact Or.inl rfl
        · exact Or.inr ⟨sp, rfl⟩
      · simp [handleSelection, hid, hdl, hpay, hval]
    · refine ⟨[Event.loadPayload sp], ?_, ?_, ?_⟩
      · simp [handleSelection, hid, hdl, hpay, hval]
      · intro e he
        simp only [List.mem_cons, List.not_mem_nil, or_false] at he
        subst he
        exact Or.inr ⟨sp, rfl⟩
      · simp [handleSelection, hid, hdl, hpay, hval]
  · have hpay' : data.payload.isSome = false := by simpa using hpay
    cases hdl : st.data_loaded
    · refine ⟨[Event.loadData], ?_, ?_, ?_⟩
      · simp [handleSelection, hid, hdl, hpay']
      · intro e he
        simp only [List.mem_cons, List.not_mem_nil, or_false] at he
        subst he
        exact Or.inl rfl
      · simp [handleSelection, hid, hdl, hpay']
    · refine ⟨[], ?_, ?_, ?_⟩
      · simp [handleSelection, hid, hdl, hpay']
      · intro e he
        cases he
      · simp [handleSelection, hid, hdl, hpay']

/-- C9: a matched selection whose training call returns `(report,
payload)` sends on the main session exactly one report metadata frame,
the pickled dict with keys id, report and payload-follows, and it is
sent before every payload frame; the payload frames that follow are
exactly those produced by the codec. -/
theorem report_frame_before_payload (sz : Pickled → Nat)
    (st : ClientState) (data : SelectionData) (frames : List Pickled)
    (r : Report) (p : PyVal)
    (hid : data.id = st.client_id)
    (hp : data.payload.isSome = true →
      (Client.recv sz data frames).isSome = true) :
    sentFrames (handleSelection sz st data frames (.ok (r, p))).1 =
      pickle_dumps (clientReportVal st.client_id r) ::
        (Client.send sz p).1 := by
  obtain ⟨pre, hevs, hpre, -⟩ :=
    handleSelection_matched_shape sz st data frames (.ok (r, p)) hid hp
  rw [hevs, sentFrames_append, sentFrames_nil_of_no_send pre hpre,
    List.nil_append, sentFrames_trainAndReport_ok, client_id_if_loaded]

/-- Witness for C9 at a concrete round with a chunked payload. -/
theorem report_frame_before_payload_witness :
    sentFrames (handleSelection sz1 demoState ⟨3, some (.bool true), some 1⟩
        [pickle_dumps (.int 9)]
        (.ok (demoReport, .list [.int 4, .int 5]))).1 =
      pickle_dumps (clientReportVal demoState.client_id demoReport) ::
        (Client.send sz1 (.list [.int 4, .int 5])).1 :=
  report_frame_before_payload sz1 demoState ⟨3, some (.bool true), some 1⟩
    [pickle_dumps (.int 9)] demoReport (.list [.int 4, .int 5]) rfl
    (fun _ => rfl)

/-- C1 counterexample: at a concrete matched round whose `train` raises,
the heartbeat task is started but never terminated: the trace ends at
the training invocation with no termination event, so the heartbeat
process survives past the training step on the failure path. -/
theorem train_raises_leaks_heartbeat_cex :
    (handleSelection sz1 demoState ⟨3, Option.none, Option.none⟩ []
        (.error (.other "boom"))).1 =
      [Event.loadData, Event.hbStart, Event.trainInvoke] ∧
    Event.hbStart ∈
      [Event.loadData, Event.hbStart, Event.trainInvoke] ∧
    Event.hbTerminate ∉
      [Event.loadData, Event.hbStart, Event.trainInvoke] := by
  refine ⟨rfl, by simp, by simp⟩

/-- C1 amended: in every matched, non-blocking round, the Heartbeat
Reporter is started immediately before the training collaborator is
invoked; when `train` returns, the heartbeat is terminated immediately
afterwards and only send events follow; when `train` raises, the
exception propagates without the heartbeat being terminated, so the
heartbeat task survives past the training step on the failure path. -/
theorem heartbeat_lifecycle_amended (sz : Pickled → Nat)
    (st : ClientState) (data : SelectionData) (frames : List Pickled)
    (train : Except PyErr (Report × PyVal))
    (hid : data.id = st.client_id)
    (hp : data.payload.isSome = true →
      (Client.recv sz data frames).isSome = true) :
    (∀ r p, train = Except.ok (r, p) →
      ∃ pre post, (handleSelection sz st data frames train).1 =
          pre ++ [Event.hbStart, Event.trainInvoke, Event.hbTerminate] ++
            post ∧
        (∀ e ∈ pre, e = Event.loadData ∨ ∃ q, e = Event.loadPayload q) ∧
        (∀ e ∈ post, ∃ f, e = Event.wsSend f)) ∧
    (∀ er, train = Except.error er →
      ∃ pre, (handleSelection sz st data frames train).1 =
          pre ++ [Event.hbStart, Event.trainInvoke] ∧
        (∀ e ∈ pre, e = Event.loadData ∨ ∃ q, e = Event.loadPayload q) ∧
        Event.hbTerminate ∉ (handleSelection sz st data frames train).1 ∧
        (handleSelection sz st data frames train).2 = StepOut.raised er) := by
  obtain ⟨pre, hevs, hpre, hout⟩ :=
    handleSelection_matched_shape sz st data frames train hid hp
  constructor
  · rintro r p rfl
    refine ⟨pre,
      Event.wsSend (pickle_dumps (clientReportVal
        (if st.data_loaded then st else loadDataEffect st).client_id r)) ::
        (Client.send sz p).1.map Event.wsSend, ?_, hpre, ?_⟩
    · rw [hevs]
      simp [trainAndReport, List.append_assoc]
    · intro e he
      simp only [List.mem_cons, List.mem_map] at he
      rcases he with rfl | ⟨f, -, rfl⟩
      · exact ⟨_, rfl⟩
      · exact ⟨f, rfl⟩
  · rintro er rfl
    refine ⟨pre, ?_, hpre, ?_, ?_⟩
    · rw [hevs]
      simp [trainAndReport]
    · intro hmem
      rw [hevs] at hmem
      rcases List.mem_append.mp hmem with h | h
      · rcases hpre _ h with he | ⟨q, he⟩ <;> simp at he
      · simp [trainAndReport] at h
    · rw [hout]
      simp [trainAndReport]

/-- Witness for C1 at a concrete successful round. -/
theorem heartbeat_lifecycle_amended_witness :
    ∃ pre post,
      (handleSelection sz1 demoState ⟨3, Option.none, Option.none⟩ []
          (.ok (demoReport, .int 0))).1 =
        pre ++ [Event.hbStart, Event.trainInvoke, Event.hbTerminate] ++
          post ∧
      (∀ e ∈ pre, e = Event.loadData ∨ ∃ q, e = Event.loadPayload q) ∧
      (∀ e ∈ post, ∃ f, e = Event.wsSend f) :=
  (heartbeat_lifecycle_amended sz1 demoState ⟨3, Option.none, Option.none⟩
    [] (.ok (demoReport, .int 0)) rfl
    (fun h => absurd h (by decide))).1 demoReport (.int 0) rfl

theorem trainAndReport_ok_state (sz : Pickled → Nat) (s : ClientState)
    (train : Except PyErr (Report × PyVal)) (st1 : ClientState)
    (h : (trainAndReport sz s train).2 = .ok st1) : st1 = s := by
  cases train with
  | error e => simp [trainAndReport] at h
  | ok rp =>
      obtain ⟨r, p⟩ := rp
      simp [trainAndReport] at h
      exact h.symm

/-- The state after a non-raising, non-blocking step is the incoming
state, at most with the data handle marked loaded. -/
theorem handleSelection_state (sz : Pickled → Nat) (st : ClientState)
    (data : SelectionData) (frames : List Pickled)
    (train : Except PyErr (Report × PyVal)) (st1 : ClientState)
    (h : (handleSelection sz st data frames train).2 = .ok st1) :
    st1 = st ∨ st1 = loadDataEffect st := by
  by_cases hid : data.id = st.client_id
  · by_cases hdl : st.data_loaded <;> by_cases hpay : data.payload.isSome
    · cases hrecv : Client.recv sz data frames with
      | none => simp [handleSelection, hid, hdl, hpay, hrecv] at h
      | some v =>
          obtain ⟨sp, nb, rest⟩ := v
          simp only [handleSelection, hid, if_pos, hdl, if_true, hpay,
            hrecv] at h
          exact Or.inl (trainAndReport_ok_state sz st train st1 h)
    · have hpay' : data.payload.isSome = false := by simpa using hpay
      simp only [handleSelection, hid, if_pos, hdl, if_true, hpay',
        Bool.false_eq_true, if_false] at h
      exact Or.inl (trainAndReport_ok_state sz st train st1 h)
    · cases hrecv : Client.recv sz data frames with
      | none => simp [handleSelection, hid, hdl, hpay, hrecv] at h
      | some v =>
          obtain ⟨sp, nb, rest⟩ := v
          simp only [handleSelection, hid, if_pos, hdl,
            Bool.false_eq_true, if_false, hpay, hrecv] at h
          exact Or.inr
            (trainAndReport_ok_state sz (loadDataEffect st) train st1 h)
    · have hpay' : data.payload.isSome = false := by simpa using hpay
      simp only [handleSelection, hid, if_pos, hdl, Bool.false_eq_true,
        if_false, hpay'] at h
      exact Or.inr
        (trainAndReport_ok_state sz (loadDataEffect st) train st1 h)
  · rw [handleSelection_unmatched sz st data frames train hid] at h
    cases h
    exact Or.inl rfl

theorem client_id_handleSelection (sz : Pickled → Nat) (st : ClientState)
    (data : SelectionData) (frames : List Pickled)
    (train : Except PyErr (Report × PyVal)) (st1 : ClientState)
    (h : (handleSelection sz st data frames train).2 = .ok st1) :
    st1.client_id = st.client_id := by
  rcases handleSelection_state sz st data frames train st1 h with rfl | rfl
  · rfl
  · rfl

/-- C8: a transport-level error raised at any point of the coordination
loop is terminal: the failure is logged with the client identity, the
loop produces no further events (whatever was scripted after the error
is never processed), and the run surfaces the terminal failed status
rather than retrying. -/
theorem transport_error_terminal (sz : Pickled → Nat) (st : ClientState)
    (pre post : List NetEvent) (m : String) (evs : List Event)
    (st1 : ClientState)
    (h : runLoop sz st pre = (evs, .awaiting st1)) :
    runLoop sz st (pre ++ NetEvent.oserror m :: post) =
      (evs ++ [Event.logConnFailed st.client_id m], .failed) := by
  induction pre generalizing st evs with
  | nil =>
      simp only [runLoop, Prod.mk.injEq] at h
      obtain ⟨rfl, -⟩ := h
      simp [runLoop]
  | cons ev rest ih =>
      cases ev with
      | oserror m2 =>
          simp only [runLoop, Prod.mk.injEq] at h
          obtain ⟨-, h2⟩ := h
          cases h2
      | msg data frames train =>
          rw [List.cons_append, runLoop]
          rw [runLoop] at h
          rcases hstep : handleSelection sz st data frames train with
            ⟨evs0, out⟩
          rw [hstep] at h
          cases out with
          | ok st2 =>
              simp only [Prod.mk.injEq] at h
              obtain ⟨rfl, h2⟩ := h
              have hr : runLoop sz st2 rest =
                  ((runLoop sz st2 rest).1, LoopResult.awaiting st1) := by
                rw [← h2]
              have := ih st2 (runLoop sz st2 rest).1 hr
              simp only [this]
              have hcid : st2.client_id = st.client_id :=
                client_id_handleSelection sz st data frames train st2
                  (by rw [hstep])
              rw [hcid, List.append_assoc]
          | raised e =>
              cases e with
              | os m2 =>
                  simp only [Prod.mk.injEq] at h
                  obtain ⟨-, h2⟩ := h
                  cases h2
              | other m2 =>
                  simp only [Prod.mk.injEq] at h
                  obtain ⟨-, h2⟩ := h
                  cases h2
          | blocked =>
              simp only [Prod.mk.injEq] at h
              obtain ⟨-, h2⟩ := h
              cases h2

/-- Witness for C8: one clean round, then a connection reset; the trace
ends with the logged failure and the terminal failed status, ignoring
a scripted later message. -/
theorem transport_error_terminal_witness :
    runLoop sz1 demoState ([] ++ NetEvent.oserror "reset" ::
        [NetEvent.msg ⟨3, Option.none, Option.none⟩ []
          (.ok (demoReport, .int 0))]) =
      ([] ++ [Event.logConnFailed demoState.client_id "reset"],
        .failed) :=
  transport_error_terminal sz1 demoState []
    [NetEvent.msg ⟨3, Option.none, Option.none⟩ []
      (.ok (demoReport, .int 0))] "reset" [] demoState rfl

theorem countLD_append (a b : List Event) :
    countLD (a ++ b) = countLD a + countLD b :=
  List.countP_append _ _ _

theorem countLD_map_wsSend (l : List Pickled) :
    countLD (l.map Event.wsSend) = 0 := by
  induction l with
  | nil => rfl
  | cons f t ih => simpa [countLD, List.countP_cons] using ih

theorem countLD_trainAndReport (sz : Pickled → Nat) (s : ClientState)
    (train : Except PyErr (Report × PyVal)) :
    countLD (trainAndReport sz s train).1 = 0 := by
  cases train with
  | error e => rfl
  | ok rp =>
      obtain ⟨r, p⟩ := rp
      show countLD (_ ++ _) = 0
      rw [countLD_append, countLD_map_wsSend]
      rfl

/-- Once the data handle is cached, a step never calls `load_data`. -/
theorem handleSelection_loaded_no_load (sz : Pickled → Nat)
    (st : ClientState) (data : SelectionData) (frames : List Pickled)
    (train : Except PyErr (Report × PyVal))
    (hdl : st.data_loaded = true) :
    countLD (handleSelection sz st data frames train).1 = 0 := by
  by_cases hid : data.id = st.client_id
  · by_cases hpay : data.payload.isSome
    · cases hrecv : Client.recv sz data frames with
      | none => simp [handleSelection, hid, hdl, hpay, hrecv, countLD]
      | some v =>
          obtain ⟨sp, nb, rest⟩ := v
          simp only [handleSelection, hid, if_pos, hdl, if_true, hpay,
            hrecv]
          rw [countLD_append, countLD_append, countLD_trainAndReport]
          rfl
    · have hpay' : data.payload.isSome = false := by simpa using hpay
      simp only [handleSelection, hid, if_pos, hdl, if_true, hpay',
        Bool.false_eq_true, if_false]
      rw [countLD_append, countLD_trainAndReport]
      rfl
  · rw [handleSelection_unmatched sz st data frames train hid]
    rfl

/-- Once the data handle is cached, no remaining run of the loop ever
calls `load_data` again. -/
theorem runLoop_loaded_no_load (sz : Pickled → Nat) (st : ClientState)
    (script : List NetEvent) (hdl : st.data_loaded = true) :
    countLD (runLoop sz st script).1 = 0 := by
  induction script generalizing st with
  | nil => rfl
  | cons ev rest ih =>
      cases ev with
      | oserror m => rfl
      | msg data frames train =>
          rw [runLoop]
          rcases hstep : handleSelection sz st data frames train with
            ⟨evs0, out⟩
          have hcnt : countLD evs0 = 0 := by
            have := handleSelection_loaded_no_load sz st data frames
              train hdl
            rw [hstep] at this
            exact this
          cases out with
          | ok st2 =>
              have hst2 : st2.data_loaded = true := by
                rcases handleSelection_state sz st data frames train st2
                  (by rw [hstep]) with rfl | rfl
                · exact hdl
                · rfl
              simp only
              rw [countLD_append, hcnt, ih st2 hst2]
          | raised e =>
              cases e with
              | os m =>
                  show countLD (_ ++ _) = 0
                  rw [countLD_append, hcnt]
                  rfl
              | other m => exact hcnt
          | blocked => exact hcnt

/-- The first matched selection in an unloaded state calls `load_data`
first, exactly once within the step, and caches the handle in any
continuing state. -/
theorem handleSelection_unloaded_matched (sz : Pickled → Nat)
    (st : ClientState) (data : SelectionData) (frames : List Pickled)
    (train : Except PyErr (Report × PyVal))
    (hdl : st.data_loaded = false) (hid : data.id = st.client_id) :
    ∃ tail, (handleSelection sz st data frames train).1 =
        Event.loadData :: tail ∧ countLD tail = 0 ∧
      ∀ st1, (handleSelection sz st data frames train).2 = .ok st1 →
        st1.data_loaded = true := by
  have hok : ∀ st1,
      (handleSelection sz st data frames train).2 = .ok st1 →
      st1.data_loaded = true := by
    intro st1 h
    rcases handleSelection_state sz st data frames train st1 h with
      rfl | rfl
    · -- a matched step from an unloaded state cannot return it unchanged
      by_cases hpay : data.payload.isSome
      · cases hrecv : Client.recv sz data frames with
        | none => simp [handleSelection, hid, hdl, hpay, hrecv] at h
        | some v =>
            obtain ⟨sp, nb, rest⟩ := v
            simp only [handleSelection, hid, if_pos, hdl,
              Bool.false_eq_true, if_false, hpay, hrecv] at h
            have := trainAndReport_ok_state sz (loadDataEffect st1)
              train st1 h
            exact (congrArg ClientState.data_loaded this).trans rfl
      · have hpay' : data.payload.isSome = false := by simpa using hpay
        simp only [handleSelection, hid, if_pos, hdl,
          Bool.false_eq_true, if_false, hpay'] at h
        have := trainAndReport_ok_state sz (loadDataEffect st1)
          train st1 h
        exact (congrArg ClientState.data_loaded this).trans rfl
    · rfl
  by_cases hpay : data.payload.isSome
  · cases hrecv : Client.recv sz data frames with
    | none =>
        refine ⟨[], ?_, rfl, hok⟩
        simp [handleSelection, hid, hdl, hpay, hrecv]
    | some v =>
        obtain ⟨sp, nb, rest⟩ := v
        refine ⟨Event.loadPayload sp ::
          (trainAndReport sz (loadDataEffect st) train).1, ?_, ?_, hok⟩
        · simp [handleSelection, hid, hdl, hpay, hrecv]
        · simpa [countLD, List.countP_cons]
            using countLD_trainAndReport sz (loadDataEffect st) train
  · have hpay' : data.payload.isSome = false := by simpa using hpay
    refine ⟨(trainAndReport sz (loadDataEffect st) train).1, ?_, ?_, hok⟩
    · simp [handleSelection, hid, hdl, hpay']
    · exact countLD_trainAndReport sz (loadDataEffect st) train

/-- C3: over a run whose script consists of any number of selections for
other identities, then the first selection for this client, then
anything further, the data-loading collaborator is called exactly once,
at that first matched selection, and never again in later rounds. -/
theorem load_data_exactly_once (sz : Pickled → Nat) (st : ClientState)
    (pre : List NetEvent) (data : SelectionData) (frames : List Pickled)
    (train : Except PyErr (Report × PyVal)) (rest : List NetEvent)
    (hld : st.data_loaded = false)
    (hpre : ∀ ev ∈ pre, ∃ d f t, ev = NetEvent.msg d f t ∧
      d.id ≠ st.client_id)
    (hmatch : data.id = st.client_id) :
    ∃ tail,
      (runLoop sz st (pre ++ NetEvent.msg data frames train :: rest)).1 =
        Event.loadData :: tail ∧ countLD tail = 0 ∧
      countLD (runLoop sz st
        (pre ++ NetEvent.msg data frames train :: rest)).1 = 1 := by
  induction pre with
  | nil =>
      rw [List.nil_append, runLoop]
      rcases hstep : handleSelection sz st data frames train with
        ⟨evs0, out⟩
      obtain ⟨tail0, hevs0, htail0, hok⟩ :=
        handleSelection_unloaded_matched sz st data frames train hld
          hmatch
      rw [hstep] at hevs0 hok
      simp only at hevs0
      subst hevs0
      cases out with
      | ok st2 =>
          have hst2 : st2.data_loaded = true := hok st2 rfl
          have hrest := runLoop_loaded_no_load sz st2 rest hst2
          refine ⟨tail0 ++ (runLoop sz st2 rest).1, ?_, ?_, ?_⟩
          · simp
          · rw [countLD_append, htail0, hrest]
          · simp only
            rw [List.cons_append, countLD, List.countP_cons,
              ← countLD, countLD_append, htail0, hrest]
            rfl
      | raised e =>
          cases e with
          | os m =>
              refine ⟨tail0 ++ [Event.logConnFailed st.client_id m],
                ?_, ?_, ?_⟩
              · simp
              · rw [countLD_append, htail0]
                rfl
              · simp only
                rw [List.cons_append, countLD, List.countP_cons,
                  ← countLD, countLD_append, htail0]
                rfl
          | other m =>
              refine ⟨tail0, rfl, htail0, ?_⟩
              rw [countLD, List.countP_cons, ← countLD, htail0]
              rfl
      | blocked =>
          refine ⟨tail0, rfl, htail0, ?_⟩
          rw [countLD, List.countP_cons, ← countLD, htail0]
          rfl
  | cons ev pre1 ih =>
      obtain ⟨d, f, t, rfl, hne⟩ := hpre _ (List.mem_cons_self ev pre1)
      rw [List.cons_append, runLoop,
        handleSelection_unmatched sz st d f t hne]
      simp only [List.nil_append]
      exact ih (fun x hx => hpre x (List.mem_cons_of_mem _ hx))

/-- Witness for C3: an unmatched selection, the first matched selection
and a second matched selection; `load_data` fires once, first. -/
theorem load_data_exactly_once_witness :
    ∃ tail,
      (runLoop sz1 demoState
        ([NetEvent.msg ⟨7, Option.none, Option.none⟩ []
            (.ok (demoReport, .int 0))] ++
          NetEvent.msg ⟨3, Option.none, Option.none⟩ []
            (.ok (demoReport, .int 0)) ::
          [NetEvent.msg ⟨3, Option.none, Option.none⟩ []
            (.ok (demoReport, .int 1))])).1 =
        Event.loadData :: tail ∧ countLD tail = 0 ∧
      countLD (runLoop sz1 demoState
        ([NetEvent.msg ⟨7, Option.none, Option.none⟩ []
            (.ok (demoReport, .int 0))] ++
          NetEvent.msg ⟨3, Option.none, Option.none⟩ []
            (.ok (demoReport, .int 0)) ::
          [NetEvent.msg ⟨3, Option.none, Option.none⟩ []
            (.ok (demoReport, .int 1))])).1 = 1 :=
  load_data_exactly_once sz1 demoState
    [NetEvent.msg ⟨7, Option.none, Option.none⟩ []
      (.ok (demoReport, .int 0))]
    ⟨3, Option.none, Option.none⟩ [] (.ok (demoReport, .int 0))
    [NetEvent.msg ⟨3, Option.none, Option.none⟩ []
      (.ok (demoReport, .int 1))]
    rfl
    (by
      intro ev hev
      simp only [List.mem_cons, List.not_mem_nil, or_false] at hev
      subst hev
      exact ⟨_, _, _, rfl, by decide⟩)
    rfl

end Plato
